import Mathlib

/-!
Shallow embedding of the BLS jobs-day pipeline (jobs_day_API.py):
the series normalizer (process_bls_data) and the pure geometry of the
chart renderer (plot_time_series).  Machine floats are modelled as
exact rationals; pandas timestamps as integers that are
order-isomorphic to calendar dates (month serials for the normalizer,
day serials for the renderer's fixed recession dates).
-/

namespace JobsDay

/-- Raw observation as delivered by the BLS API: a year, a period code
such as "M01", and a string-encoded value. -/
structure RawObservation where
  year : Int
  period : String
  value : String
deriving DecidableEq

/-- One series of the raw payload: its id and its observation list. -/
structure RawSeries where
  seriesID : String
  data : List RawObservation
deriving DecidableEq

/-- Container for the series list, mirroring raw_data["Results"]["series"]. -/
structure RawResults where
  series : List RawSeries
deriving DecidableEq

/-- Top-level raw API payload. -/
structure RawPayload where
  Results : RawResults
deriving DecidableEq

/-- Errors the normalizer can raise, refining the Python exceptions:
ValueError from int()/float() parsing, ValueError from pd.to_datetime,
KeyError from reading the "date" column of an empty DataFrame, and the
ValueError pd.pivot raises on duplicate index entries. -/
inductive NormError where
  | valueConversion
  | dateConversion
  | missingColumn
  | duplicateIndex
deriving DecidableEq

/-- Digits of a decimal numeral folded into a Nat (caller checks digits). -/
def natOfDigits (cs : List Char) : Nat :=
  cs.foldl (fun acc c => acc * 10 + (c.toNat - 48)) 0

/-- Nonempty all-digit character list parsed as a Nat, else none. -/
def digitsToNat (cs : List Char) : Option Nat :=
  if cs ≠ [] ∧ cs.all (·.isDigit) then some (natOfDigits cs) else none

/-- Model of Python int() on sign-and-digits forms, taking the string as
its character list: an optional single sign followed by a nonempty digit
string; anything else fails. -/
def parsePyInt (cs : List Char) : Option Int :=
  match cs with
  | '-' :: rest => (digitsToNat rest).map (fun n => -(n : Int))
  | '+' :: rest => (digitsToNat rest).map (fun n => (n : Int))
  | l => (digitsToNat l).map (fun n => (n : Int))

/-- Model of Python str.startswith: prefix test on the character lists. -/
def pyStartsWith (s pre : String) : Bool := pre.data.isPrefixOf s.data

/-- Unsigned decimal literal (digits, optionally a point and more digits,
at least one digit overall) read as an exact rational. -/
def parseUnsignedDec (cs : List Char) : Option Rat :=
  let intPart := cs.takeWhile (·.isDigit)
  let rest := cs.dropWhile (·.isDigit)
  match rest with
  | [] => if intPart ≠ [] then some ((natOfDigits intPart : Rat)) else none
  | '.' :: frac =>
      if frac.all (·.isDigit) ∧ ¬(intPart = [] ∧ frac = []) then
        some ((natOfDigits intPart : Rat) + (natOfDigits frac : Rat) / (10 : Rat) ^ frac.length)
      else none
  | _ => none

/-- Model of Python float(s) on plain decimal literals with an optional
sign; exact rational arithmetic stands in for binary doubles. -/
def parsePyFloat (s : String) : Option Rat :=
  match s.data with
  | '-' :: rest => (parseUnsignedDec rest).map (fun q => -q)
  | '+' :: rest => parseUnsignedDec rest
  | cs => parseUnsignedDec cs

/-- Long-format point collected in the normalizer's loop before the date
conversion: series id, year, month number, parsed value. -/
structure RawPoint where
  series_id : String
  year : Int
  month : Int
  value : Rat
deriving DecidableEq

/-- Tidy point after date conversion: the date is encoded as the month
serial year*12 + (month-1), order-isomorphic to the calendar date. -/
structure DataPoint where
  series_id : String
  date : Int
  value : Rat
deriving DecidableEq

/-- Model of pd.to_datetime applied to the f-string "year-month-01":
succeeds exactly when the month is 01..12 and the date lies in the
pandas Timestamp range (1677-09-21 .. 2262-04-11); yields the month
serial. Out-of-range months such as 13 raise, as in pandas. -/
def toDatetime (y m : Int) : Option Int :=
  if (1 ≤ m ∧ m ≤ 12) ∧
      ((1677 < y ∧ y < 2262) ∨ (y = 1677 ∧ 10 ≤ m) ∨ (y = 2262 ∧ m ≤ 4)) then
    some (y * 12 + (m - 1))
  else none

/-- Inner loop of process_bls_data over one series' data list: items whose
period does not start with "M" are skipped; for the others the month is
int-parsed from the rest of the period and the value float-parsed, either
failure raising ValueError. -/
def collectItems (sid : String) : List RawObservation → Except NormError (List RawPoint)
  | [] => .ok []
  | item :: rest =>
    if pyStartsWith item.period "M" then
      match parsePyInt (item.period.data.drop 1) with
      | none => .error .valueConversion
      | some m =>
        match parsePyFloat item.value with
        | none => .error .valueConversion
        | some v =>
          (collectItems sid rest).map (fun tl => { series_id := sid, year := item.year, month := m, value := v } :: tl)
    else collectItems sid rest

/-- Outer loop of process_bls_data over the payload's series list,
concatenating the collected long-format points. -/
def collectSeries : List RawSeries → Except NormError (List RawPoint)
  | [] => .ok []
  | s :: rest => do
    let pts ← collectItems s.seriesID s.data
    let more ← collectSeries rest
    return pts ++ more

/-- Vectorized pd.to_datetime over the date column: any invalid date
aborts with ValueError. -/
def toDatetimeAll : List RawPoint → Except NormError (List DataPoint)
  | [] => .ok []
  | p :: rest =>
    match toDatetime p.year p.month with
    | none => .error .dateConversion
    | some d => (toDatetimeAll rest).map (fun tl => { series_id := p.series_id, date := d, value := p.value } :: tl)

/-- Wide-format table produced by df.pivot: a sorted date index, sorted
series-id columns, and the cell contents as (date, series_id, value)
triples. -/
structure Table where
  index : List Int
  columns : List String
  cells : List (Int × String × Rat)
deriving DecidableEq

/-- Cell lookup: the value at a (date, series id) pair, if present. -/
def Table.get (t : Table) (d : Int) (c : String) : Option Rat :=
  (t.cells.find? (fun x => decide (x.1 = d) && decide (x.2.1 = c))).map (fun x => x.2.2)

/-- Model of df.pivot(index="date", columns="series_id", values="value"):
raises ValueError when two points share a (date, series_id) key, else
builds the wide table with index and columns sorted ascending (pandas
unstack sorts both axes). -/
def pivot (pts : List DataPoint) : Except NormError Table :=
  if (pts.map (fun p => (p.date, p.series_id))).Nodup then
    .ok { index := List.insertionSort (· ≤ ·) (pts.map (fun p => p.date)).dedup,
          columns := List.insertionSort (· ≤ ·) (pts.map (fun p => p.series_id)).dedup,
          cells := pts.map (fun p => (p.date, p.series_id, p.value)) }
  else .error .duplicateIndex

/-- Steps of process_bls_data before the pivot: collect the points, then
build the DataFrame — reading the "date" column of the empty frame made
from an empty point list raises KeyError — then convert the dates. -/
def prePivot (raw : RawPayload) : Except NormError (List DataPoint) := do
  let pts ← collectSeries raw.Results.series
  if pts.isEmpty then throw .missingColumn
  toDatetimeAll pts

/-- Embedding of process_bls_data: the whole normalizer. -/
def process_bls_data (raw : RawPayload) : Except NormError Table := do
  let dated ← prePivot raw
  pivot dated

/-- Minimum of the date index (df.index.min()); 0 for an empty index,
a case the renderer claims exclude. -/
def listMin : List Int → Int
  | [] => 0
  | x :: xs => xs.foldl min x

/-- Maximum of the date index (df.index.max()); 0 for an empty index. -/
def listMax : List Int → Int
  | [] => 0
  | x :: xs => xs.foldl max x

/-- Maximum cell value, df.max().max(); 0 for an empty cell list, a case
the renderer claims exclude (pandas would give NaN there). -/
def dataMax : List (Int × String × Rat) → Rat
  | [] => 0
  | c :: cs => cs.foldl (fun a x => max a x.2.2) c.2.2

/-- NBER recession dates of the source, as day serials since 1970-01-01:
(2001-03-01, 2001-11-01), (2007-12-01, 2009-06-01),
(2020-02-01, 2020-04-01). -/
def recession_dates : List (Int × Int) :=
  [(11382, 11627), (13848, 14396), (18293, 18353)]

/-- Body of the recession loop for one interval: skipped when it ends
before x_min or starts after x_max, else clipped to the visible window
as (visible_start, visible_end). -/
def clipBand (x_min x_max : Rat) (iv : Int × Int) : Option (Rat × Rat) :=
  if (iv.2 : Rat) < x_min ∨ x_max < (iv.1 : Rat) then none
  else some (max (iv.1 : Rat) x_min, min (iv.2 : Rat) x_max)

/-- Round half to even on an exact rational, modelling the rounding of
Python's fixed-point formatting (binary-double artifacts excepted). -/
def roundHalfEven (q : Rat) : Int :=
  let n := ⌊q⌋
  if q - n > 1 / 2 then n + 1
  else if q - n < 1 / 2 then n
  else if n % 2 = 0 then n else n + 1

/-- Model of the f-string {v:.1f}: the value rendered with exactly one
decimal digit. -/
def formatOneDec (q : Rat) : String :=
  let s := roundHalfEven (q * 10)
  if s < 0 then "-" ++ toString ((-s) / 10) ++ "." ++ toString ((-s) % 10)
  else toString (s / 10) ++ "." ++ toString (s % 10)

/-- Current value of one column: df[column].iloc[-1], the value of the
positionally last row in that column (absent cells are NaN in pandas,
modelled as none). -/
def currentValue (t : Table) (c : String) : Option Rat :=
  t.index.getLast?.bind (fun d => t.get d c)

/-- Text of the current-value annotation: the value at one decimal place
with a trailing percent sign (pandas NaN prints as nan). -/
def calloutText : Option Rat → String
  | some v => formatOneDec v ++ "%"
  | none => "nan%"

/-- Current-value annotation drawn for one column: the dashed horizontal
line's height, the text x-position, and the text itself. -/
structure Callout where
  column : String
  hline : Option Rat
  text_x : Rat
  text : String
deriving DecidableEq

/-- Pure geometry of the rendered chart: x-limits, y-limits, the shaded
recession bands, and the current-value callouts. -/
structure RenderOutput where
  x_min : Rat
  x_max : Rat
  y_min : Rat
  y_max : Rat
  bands : List (Rat × Rat)
  callouts : List Callout
deriving DecidableEq

/-- Embedding of the computational content of plot_time_series: the date
range and padding, the x-limits, the recession bands, the per-column
current-value callouts, and the y-limits.  Style options (colors, fonts,
titles, the logo) draw fixed decoration and are not part of the
geometry. -/
def plot_time_series (df : Table) (add_recession_shading : Bool)
    (show_current_value : Bool) (x_padding : Rat) : RenderOutput :=
  let start_date := listMin df.index
  let end_date := listMax df.index
  let date_range : Int := end_date - start_date
  let padding : Rat := (date_range : Rat) * x_padding
  let x_min : Rat := (start_date : Rat) - padding
  let x_max : Rat := (end_date : Rat) + padding
  let bands := if add_recession_shading then recession_dates.filterMap (clipBand x_min x_max) else []
  let callouts :=
    if show_current_value then
      df.columns.map (fun c =>
        let cv := currentValue df c
        { column := c, hline := cv, text_x := (end_date : Rat) + padding * (8 / 10),
          text := calloutText cv : Callout })
    else []
  let y_max : Rat := max (dataMax df.cells * (11 / 10)) 15
  { x_min := x_min, x_max := x_max, y_min := 0, y_max := y_max,
    bands := bands, callouts := callouts }

/-- Flattened observation list of a payload, each observation paired with
its series id, in iteration order. -/
def obsList (p : RawPayload) : List (String × RawObservation) :=
  p.Results.series.flatMap (fun s => s.data.map (fun it => (s.seriesID, it)))

/-- Payload with the non-monthly observations removed from every series. -/
def filterMonthly (p : RawPayload) : RawPayload :=
  { Results := { series := p.Results.series.map (fun s =>
      { seriesID := s.seriesID, data := s.data.filter (fun it => pyStartsWith it.period "M") }) } }

@[simp]
theorem normBind_ok {α β : Type} (a : α) (f : α → Except NormError β) :
    Bind.bind (Except.ok a) f = f a := rfl

@[simp]
theorem normBind_error {α β : Type} (e : NormError) (f : α → Except NormError β) :
    Bind.bind (Except.error e) f = (Except.error e : Except NormError β) := rfl

@[simp]
theorem normThrow {α : Type} (e : NormError) :
    (throw e : Except NormError α) = Except.error e := rfl

@[simp]
theorem normMap_ok {α β : Type} (a : α) (f : α → β) :
    Except.map f (Except.ok a : Except NormError α) = Except.ok (f a) := rfl

@[simp]
theorem normMap_error {α β : Type} (e : NormError) (f : α → β) :
    Except.map f (Except.error e : Except NormError α) = Except.error e := rfl

theorem collectItems_filterM (sid : String) (items : List RawObservation) :
    collectItems sid (items.filter (fun it => pyStartsWith it.period "M")) =
      collectItems sid items := by
  induction items with
  | nil => rfl
  | cons it rest ih =>
    by_cases h : pyStartsWith it.period "M"
    · simp [collectItems, List.filter, h, ih]
    · simp [collectItems, List.filter, h, ih]

theorem collectSeries_filterM (L : List RawSeries) :
    collectSeries (L.map (fun s =>
        { seriesID := s.seriesID, data := s.data.filter (fun it => pyStartsWith it.period "M") })) =
      collectSeries L := by
  induction L with
  | nil => rfl
  | cons s rest ih =>
    simp only [List.map_cons, collectSeries, collectItems_filterM, ih]

theorem collectItems_nonM (sid : String) (items : List RawObservation)
    (h : ∀ it ∈ items, ¬ pyStartsWith it.period "M") :
    collectItems sid items = .ok [] := by
  induction items with
  | nil => rfl
  | cons it rest ih =>
    have h1 : ¬ pyStartsWith it.period "M" := h it (List.mem_cons_self _ _)
    have h2 := ih (fun x hx => h x (List.mem_cons_of_mem _ hx))
    simp [collectItems, h1, h2]

theorem collectSeries_nonM (L : List RawSeries)
    (h : ∀ s ∈ L, ∀ it ∈ s.data, ¬ pyStartsWith it.period "M") :
    collectSeries L = .ok [] := by
  induction L with
  | nil => rfl
  | cons s rest ih =>
    have h1 := collectItems_nonM s.seriesID s.data (h s (List.mem_cons_self _ _))
    have h2 := ih (fun x hx => h x (List.mem_cons_of_mem _ hx))
    simp [collectSeries, h1, h2]

theorem collectItems_ok_or_valueError (sid : String) (items : List RawObservation) :
    (∃ l, collectItems sid items = .ok l) ∨
      collectItems sid items = .error .valueConversion := by
  induction items with
  | nil => exact Or.inl ⟨[], rfl⟩
  | cons it rest ih =>
    by_cases h : pyStartsWith it.period "M"
    · cases hm : parsePyInt it.period.data.tail with
      | none => exact Or.inr (by simp [collectItems, h, hm])
      | some m =>
        cases hv : parsePyFloat it.value with
        | none => exact Or.inr (by simp [collectItems, h, hm, hv])
        | some v =>
          rcases ih with ⟨l, hl⟩ | he
          · exact Or.inl ⟨{ series_id := sid, year := it.year, month := m, value := v } :: l,
              by simp [collectItems, h, hm, hv, hl]⟩
          · exact Or.inr (by simp [collectItems, h, hm, hv, he])
    · simpa [collectItems, h] using ih

theorem collectSeries_ok_or_valueError (L : List RawSeries) :
    (∃ l, collectSeries L = .ok l) ∨
      collectSeries L = .error .valueConversion := by
  induction L with
  | nil => exact Or.inl ⟨[], rfl⟩
  | cons s rest ih =>
    rcases collectItems_ok_or_valueError s.seriesID s.data with ⟨l, hl⟩ | he
    · rcases ih with ⟨l2, hl2⟩ | he2
      · exact Or.inl ⟨l ++ l2, by simp [collectSeries, hl, hl2]⟩
      · exact Or.inr (by simp [collectSeries, hl, he2])
    · exact Or.inr (by simp [collectSeries, he])

theorem collectItems_ok_parses (sid : String) (items : List RawObservation)
    (l : List RawPoint) (hok : collectItems sid items = .ok l) :
    ∀ it ∈ items, pyStartsWith it.period "M" →
      (parsePyInt it.period.data.tail).isSome ∧ (parsePyFloat it.value).isSome := by
  induction items generalizing l with
  | nil => intro it h; exact absurd h (List.not_mem_nil it)
  | cons a rest ih =>
    intro it hmem hM
    by_cases h : pyStartsWith a.period "M"
    · cases hm : parsePyInt a.period.data.tail with
      | none => simp [collectItems, h, hm] at hok
      | some m =>
        cases hv : parsePyFloat a.value with
        | none => simp [collectItems, h, hm, hv] at hok
        | some v =>
          rcases List.mem_cons.mp hmem with rfl | hmem
          · exact ⟨by simp [hm], by simp [hv]⟩
          · cases hrest : collectItems sid rest with
            | error e => simp [collectItems, h, hm, hv, hrest] at hok
            | ok tl => exact ih tl hrest it hmem hM
    · rcases List.mem_cons.mp hmem with rfl | hmem
      · exact absurd hM h
      · simp only [collectItems, h, if_neg] at hok
        exact ih l (by simpa [h] using hok) it hmem hM

theorem mem_obsList_of_mem (p : RawPayload) (s : RawSeries) (it : RawObservation)
    (hs : s ∈ p.Results.series) (hit : it ∈ s.data) :
    (s.seriesID, it) ∈ obsList p := by
  rw [obsList, List.mem_flatMap]
  exact ⟨s, hs, List.mem_map.mpr ⟨it, hit, rfl⟩⟩

theorem collectSeries_ok_parses (L : List RawSeries)
    (l : List RawPoint) (hok : collectSeries L = .ok l) :
    ∀ s ∈ L, ∀ it ∈ s.data, pyStartsWith it.period "M" →
      (parsePyInt it.period.data.tail).isSome ∧ (parsePyFloat it.value).isSome := by
  induction L generalizing l with
  | nil => intro s h; exact absurd h (List.not_mem_nil s)
  | cons a rest ih =>
    intro s hmem it hit hM
    cases ha : collectItems a.seriesID a.data with
    | error e => simp [collectSeries, ha] at hok
    | ok l1 =>
      cases hrest : collectSeries rest with
      | error e => simp [collectSeries, ha, hrest] at hok
      | ok l2 =>
        rcases List.mem_cons.mp hmem with rfl | hmem
        · exact collectItems_ok_parses _ _ _ ha it hit hM
        · exact ih l2 hrest s hmem it hit hM

/-- Claim C1, counterexample: the observation (2020, "M13", "5.0") is not
skipped — its period starts with "M", so it is collected and then aborts
normalization at date conversion; the payload holding only this
non-monthly aggregate code does not normalize to an empty table. -/
theorem claim1_counterexample :
    process_bls_data { Results := { series := [{ seriesID := "LNS14000000", data := [{ year := 2020, period := "M13", value := "5.0" }] }] } } =
      .error .dateConversion := by
  rfl

/-- Claim C1 as amended: an observation is skipped exactly when its period
code does not start with "M" (removing those observations never changes the
result); a payload whose observations all have non-"M" period codes makes
normalization fail with the missing-column error rather than yield an empty
table; and a period "M13" with a parseable value aborts normalization with
a date-conversion error instead of being skipped. -/
theorem claim1_amended_holds :
    (∀ p : RawPayload, process_bls_data (filterMonthly p) = process_bls_data p) ∧
    (∀ p : RawPayload, (∀ x ∈ obsList p, pyStartsWith x.2.period "M" = false) →
      process_bls_data p = .error .missingColumn) ∧
    (∀ (sid v : String) (y : Int), (parsePyFloat v).isSome →
      process_bls_data { Results := { series := [{ seriesID := sid, data := [{ year := y, period := "M13", value := v }] }] } } =
        .error .dateConversion) := by
  refine ⟨?_, ?_, ?_⟩
  · intro p
    simp only [process_bls_data, prePivot, filterMonthly]
    rw [collectSeries_filterM]
  · intro p h
    have hok : collectSeries p.Results.series = .ok [] := by
      refine collectSeries_nonM _ (fun s hs it hit => ?_)
      have := h (s.seriesID, it) (mem_obsList_of_mem p s it hs hit)
      simp only at this
      simp [this]
    simp [process_bls_data, prePivot, hok]
  · intro sid v y hv
    obtain ⟨q, hq⟩ := Option.isSome_iff_exists.mp hv
    have hsw : pyStartsWith "M13" "M" = true := by decide
    have h13 : parsePyInt ['1', '3'] = some 13 := by decide
    have hdt : toDatetime y 13 = none := by norm_num [toDatetime]
    simp [process_bls_data, prePivot, collectSeries, collectItems, hsw, h13, hq,
      toDatetimeAll, hdt]

/-- Claim C1 witness: a payload with only the quarterly code "Q01" fails
with the missing-column error, and a payload with the annual-average code
"M13" fails at date conversion. -/
theorem claim1_amended_witness :
    process_bls_data { Results := { series := [{ seriesID := "A", data := [{ year := 2023, period := "Q01", value := "3.5" }] }] } } =
      .error .missingColumn ∧
    process_bls_data { Results := { series := [{ seriesID := "A", data := [{ year := 2020, period := "M13", value := "4.0" }] }] } } =
      .error .dateConversion :=
  ⟨claim1_amended_holds.2.1 _ (by decide),
   claim1_amended_holds.2.2 "A" "4.0" 2020 (by decide)⟩

/-- Claim C2, counterexample: the payload whose results.series is empty
does not yield an empty table; the normalizer fails with the
missing-column error (the KeyError raised by reading the date column of
the empty DataFrame). -/
theorem claim2_counterexample :
    process_bls_data { Results := { series := [] } } = .error .missingColumn := by
  rfl

/-- Claim C2 as amended: for every RawPayload whose results.series is
empty, normalization fails with the missing-column error instead of
returning an empty TimeSeriesTable. -/
theorem claim2_amended_holds (p : RawPayload) (h : p.Results.series = []) :
    process_bls_data p = .error .missingColumn := by
  rcases p with ⟨⟨s⟩⟩
  have hs : s = [] := h
  subst hs
  rfl

/-- Claim C2 witness: the amended statement at the literal empty payload. -/
theorem claim2_amended_witness :
    process_bls_data { Results := { series := [] } } = .error .missingColumn :=
  claim2_amended_holds { Results := { series := [] } } rfl

/-- Claim C8: a payload containing a monthly observation whose value
string is not numeric makes the normalizer fail with the value-conversion
error (Python's ValueError from float()); no table, partial or otherwise,
is returned. -/
theorem claim8_bad_value_aborts (p : RawPayload)
    (h : ∃ x ∈ obsList p, pyStartsWith x.2.period "M" = true ∧ parsePyFloat x.2.value = none) :
    process_bls_data p = .error .valueConversion := by
  obtain ⟨x, hmem, hM, hbad⟩ := h
  rw [obsList, List.mem_flatMap] at hmem
  obtain ⟨s, hs, hx⟩ := hmem
  rw [List.mem_map] at hx
  obtain ⟨it, hit, rfl⟩ := hx
  rcases collectSeries_ok_or_valueError p.Results.series with ⟨l, hl⟩ | he
  · have hc := collectSeries_ok_parses _ _ hl s hs it hit hM
    rw [hbad] at hc
    exact absurd hc.2 (by simp)
  · simp [process_bls_data, prePivot, he]

/-- Claim C8 witness: a monthly observation with the value "abc" aborts
the whole normalization with the value-conversion error. -/
theorem claim8_witness :
    process_bls_data { Results := { series := [{ seriesID := "A", data := [{ year := 2023, period := "M01", value := "abc" }] }] } } =
      .error .valueConversion :=
  claim8_bad_value_aborts _ (by decide)

/-- Month number parsed from an observation's period code (0 when it does
not parse; only used under validity hypotheses). -/
def obsMonth (it : RawObservation) : Int := (parsePyInt it.period.data.tail).getD 0

/-- Value parsed from an observation's value string (0 when it does not
parse; only used under validity hypotheses). -/
def obsValue (it : RawObservation) : Rat := (parsePyFloat it.value).getD 0

/-- Date serial of an observation (0 when invalid; only used under
validity hypotheses). -/
def obsDate (it : RawObservation) : Int := (toDatetime it.year (obsMonth it)).getD 0

/-- A well-formed monthly observation: the period code starts with "M",
its remainder parses as an integer, the resulting date converts, and the
value string is numeric. -/
def ValidObs (it : RawObservation) : Prop :=
  pyStartsWith it.period "M" = true ∧ (parsePyInt it.period.data.tail).isSome ∧
    (toDatetime it.year (obsMonth it)).isSome ∧ (parsePyFloat it.value).isSome

instance (it : RawObservation) : Decidable (ValidObs it) := by
  unfold ValidObs; infer_instance

/-- Long-format point a valid observation contributes. -/
def toRawPoint (sid : String) (it : RawObservation) : RawPoint :=
  { series_id := sid, year := it.year, month := obsMonth it, value := obsValue it }

/-- Tidy point a valid observation contributes. -/
def toDataPoint (x : String × RawObservation) : DataPoint :=
  { series_id := x.1, date := obsDate x.2, value := obsValue x.2 }

theorem collectItems_valid (sid : String) (items : List RawObservation)
    (h : ∀ it ∈ items, ValidObs it) :
    collectItems sid items = .ok (items.map (toRawPoint sid)) := by
  induction items with
  | nil => rfl
  | cons a rest ih =>
    obtain ⟨hM, hm, _, hv⟩ := h a (List.mem_cons_self _ _)
    obtain ⟨m, hm'⟩ := Option.isSome_iff_exists.mp hm
    obtain ⟨v, hv'⟩ := Option.isSome_iff_exists.mp hv
    have ih' := ih (fun x hx => h x (List.mem_cons_of_mem _ hx))
    simp [collectItems, hM, hm', hv', ih', toRawPoint, obsMonth, obsValue]

theorem collectSeries_valid (L : List RawSeries)
    (h : ∀ s ∈ L, ∀ it ∈ s.data, ValidObs it) :
    collectSeries L = .ok (L.flatMap (fun s => s.data.map (toRawPoint s.seriesID))) := by
  induction L with
  | nil => rfl
  | cons s rest ih =>
    have h1 := collectItems_valid s.seriesID s.data (h s (List.mem_cons_self _ _))
    have h2 := ih (fun x hx => h x (List.mem_cons_of_mem _ hx))
    simp [collectSeries, h1, h2]

theorem toDatetimeAll_valid (pts : List RawPoint)
    (h : ∀ r ∈ pts, (toDatetime r.year r.month).isSome) :
    toDatetimeAll pts = .ok (pts.map (fun r =>
      { series_id := r.series_id, date := (toDatetime r.year r.month).getD 0,
        value := r.value })) := by
  induction pts with
  | nil => rfl
  | cons r rest ih =>
    obtain ⟨d, hd⟩ := Option.isSome_iff_exists.mp (h r (List.mem_cons_self _ _))
    have ih' := ih (fun x hx => h x (List.mem_cons_of_mem _ hx))
    simp [toDatetimeAll, hd, ih']

theorem prePivot_valid (p : RawPayload)
    (hv : ∀ x ∈ obsList p, ValidObs x.2) (hne : obsList p ≠ []) :
    prePivot p = .ok ((obsList p).map toDataPoint) := by
  have hcs : collectSeries p.Results.series =
      .ok ((obsList p).map (fun x => toRawPoint x.1 x.2)) := by
    rw [collectSeries_valid p.Results.series
      (fun s hs it hit => hv (s.seriesID, it) (mem_obsList_of_mem p s it hs hit))]
    simp [obsList, List.map_flatMap, List.map_map, Function.comp_def]
  have hne' : (obsList p).map (fun x => toRawPoint x.1 x.2) ≠ [] := by
    simpa using hne
  have hdt : toDatetimeAll ((obsList p).map (fun x => toRawPoint x.1 x.2)) =
      .ok ((obsList p).map toDataPoint) := by
    rw [toDatetimeAll_valid _ (fun r hr => ?_)]
    · simp only [List.map_map]
      rfl
    · obtain ⟨x, hx, rfl⟩ := List.mem_map.mp hr
      exact (hv x hx).2.2.1
  simp [prePivot, hcs, List.isEmpty_iff, hne', hdt]

theorem pivot_ok (pts : List DataPoint)
    (h : (pts.map (fun q => (q.date, q.series_id))).Nodup) :
    pivot pts = .ok
      { index := List.insertionSort (· ≤ ·) (pts.map (fun q => q.date)).dedup,
        columns := List.insertionSort (· ≤ ·) (pts.map (fun q => q.series_id)).dedup,
        cells := pts.map (fun q => (q.date, q.series_id, q.value)) } := by
  simp [pivot, h]

/-- Claim C4, counterexample: the payload with one series and no
observations vacuously contains only monthly period codes and no
duplicate pairs, yet normalization fails with the missing-column error
instead of producing a table with zero rows and zero columns. -/
theorem claim4_counterexample :
    process_bls_data { Results := { series := [{ seriesID := "A", data := [] }] } } =
      .error .missingColumn := by
  rfl

/-- Claim C4 as amended: for every well-formed RawPayload with at least
one observation, all of them monthly and valid and with no duplicate
(date, seriesId) pairs, normalization succeeds and the table's row count
is the number of distinct observation dates while its column count is the
number of distinct series ids present. -/
theorem claim4_amended_holds (p : RawPayload)
    (hv : ∀ x ∈ obsList p, ValidObs x.2)
    (hne : obsList p ≠ [])
    (hnd : ((obsList p).map (fun x => (obsDate x.2, x.1))).Nodup) :
    ∃ t, process_bls_data p = .ok t ∧
      t.index.length = ((obsList p).map (fun x => obsDate x.2)).dedup.length ∧
      t.columns.length = ((obsList p).map (fun x => x.1)).dedup.length := by
  have hpre := prePivot_valid p hv hne
  have hkeys : ((obsList p).map toDataPoint).map (fun q => (q.date, q.series_id)) =
      (obsList p).map (fun x => (obsDate x.2, x.1)) := by
    simp only [List.map_map]
    rfl
  have hpiv := pivot_ok ((obsList p).map toDataPoint) (by rw [hkeys]; exact hnd)
  have hdates : ((obsList p).map toDataPoint).map (fun q => q.date) =
      (obsList p).map (fun x => obsDate x.2) := by
    simp only [List.map_map]
    rfl
  have hcols : ((obsList p).map toDataPoint).map (fun q => q.series_id) =
      (obsList p).map (fun x => x.1) := by
    simp only [List.map_map]
    rfl
  have hproc : process_bls_data p = .ok
      { index := List.insertionSort (· ≤ ·)
          (((obsList p).map toDataPoint).map (fun q => q.date)).dedup,
        columns := List.insertionSort (· ≤ ·)
          (((obsList p).map toDataPoint).map (fun q => q.series_id)).dedup,
        cells := ((obsList p).map toDataPoint).map (fun q => (q.date, q.series_id, q.value)) } := by
    simp only [process_bls_data, hpre, normBind_ok, hpiv]
  refine ⟨_, hproc, ?_, ?_⟩
  · rw [hdates]
    exact (List.perm_insertionSort _ _).length_eq
  · rw [hcols]
    exact (List.perm_insertionSort _ _).length_eq

/-- Claim C4 witness: two series with two monthly observations each, one
date shared, give a 3-row, 2-column table. -/
theorem claim4_witness :
    ∃ t, process_bls_data { Results := { series := [{ seriesID := "A", data := [{ year := 2023, period := "M02", value := "4" }, { year := 2023, period := "M01", value := "3" }] }, { seriesID := "B", data := [{ year := 2023, period := "M03", value := "5" }, { year := 2023, period := "M01", value := "6" }] }] } } = .ok t ∧
      t.index.length = 3 ∧ t.columns.length = 2 := by
  obtain ⟨t, ht, hr, hc⟩ := claim4_amended_holds
    { Results := { series := [{ seriesID := "A", data := [{ year := 2023, period := "M02", value := "4" }, { year := 2023, period := "M01", value := "3" }] }, { seriesID := "B", data := [{ year := 2023, period := "M03", value := "5" }, { year := 2023, period := "M01", value := "6" }] }] } }
    (by decide) (by decide) (by decide)
  exact ⟨t, ht, by rw [hr]; decide, by rw [hc]; decide⟩

theorem toDatetimeAll_ok_length (pts : List RawPoint) (r : List DataPoint)
    (h : toDatetimeAll pts = .ok r) : r.length = pts.length := by
  induction pts generalizing r with
  | nil => cases h; rfl
  | cons a rest ih =>
    cases hd : toDatetime a.year a.month with
    | none => simp [toDatetimeAll, hd] at h
    | some d =>
      cases hrest : toDatetimeAll rest with
      | error e => simp [toDatetimeAll, hd, hrest] at h
      | ok tl =>
        simp only [toDatetimeAll, hd, hrest, normMap_ok, Except.ok.injEq] at h
        subst h
        simp [ih tl hrest]

theorem sorted_getLast_ub : ∀ (l : List Int), l.Sorted (· ≤ ·) →
    ∀ d, l.getLast? = some d → ∀ x ∈ l, x ≤ d := by
  intro l
  induction l with
  | nil => intro _ d hd; simp at hd
  | cons a rest ih =>
    intro hs d hd x hx
    cases rest with
    | nil =>
      simp only [List.getLast?_singleton, Option.some.injEq] at hd
      subst hd
      simp only [List.mem_singleton] at hx
      exact le_of_eq hx
    | cons b rest2 =>
      rw [List.getLast?_cons_cons] at hd
      rcases List.mem_cons.mp hx with rfl | hx
      · have hdm : d ∈ b :: rest2 := by
          obtain ⟨hne, rfl⟩ := List.mem_getLast?_eq_getLast hd
          exact List.getLast_mem hne
        exact (List.pairwise_cons.mp hs).1 d hdm
      · exact ih hs.of_cons d hd x hx

/-- Claim C10: whenever the normalizer returns a table, its date index is
sorted strictly ascending — whatever the order of the payload's
observations — so the positionally last row is the chronologically latest
date and the renderer's last-value lookup is well-defined. -/
theorem claim10_sorted_index (p : RawPayload) (t : Table)
    (h : process_bls_data p = .ok t) :
    t.index.Sorted (· < ·) ∧
      ∃ d, t.index.getLast? = some d ∧ ∀ x ∈ t.index, x ≤ d := by
  rcases hpre : prePivot p with e | pts
  · rw [process_bls_data, hpre] at h
    simp at h
  · rw [process_bls_data, hpre, normBind_ok] at h
    by_cases hnd : (pts.map (fun q => (q.date, q.series_id))).Nodup
    · rw [pivot_ok pts hnd] at h
      injection h with h2
      subst h2
      have hsle : (List.insertionSort (· ≤ ·) (pts.map (fun q => q.date)).dedup).Sorted (· ≤ ·) :=
        List.sorted_insertionSort _ _
      have hnodup : (List.insertionSort (· ≤ ·) (pts.map (fun q => q.date)).dedup).Nodup :=
        ((List.perm_insertionSort _ _).nodup_iff).mpr (List.nodup_dedup _)
      refine ⟨hsle.lt_of_le hnodup, ?_⟩
      have hptsne : pts ≠ [] := by
        intro hnil
        subst hnil
        rcases hcs : collectSeries p.Results.series with e | pts0
        · simp only [prePivot, hcs, normBind_error] at hpre
          exact absurd hpre (by simp)
        · simp only [prePivot, hcs, normBind_ok] at hpre
          by_cases hemp : pts0.isEmpty = true
          · rw [if_pos hemp] at hpre
            simp at hpre
          · rw [if_neg hemp] at hpre
            have hlen0 := toDatetimeAll_ok_length pts0 [] hpre
            rw [List.length_nil] at hlen0
            exact hemp (List.isEmpty_iff.mpr (List.length_eq_zero.mp hlen0.symm))
      have hlne : List.insertionSort (· ≤ ·) (pts.map (fun q => q.date)).dedup ≠ [] := by
        have hd : (pts.map (fun q => q.date)).dedup ≠ [] := by
          simp [List.dedup_eq_nil, hptsne]
        intro hnil
        have hlen := (List.perm_insertionSort (· ≤ ·) (pts.map (fun q => q.date)).dedup).length_eq
        rw [hnil, List.length_nil] at hlen
        exact hd (List.length_eq_zero.mp hlen.symm)
      obtain ⟨d, hd⟩ := Option.isSome_iff_exists.mp
        (List.getLast?_isSome.mpr hlne)
      exact ⟨d, hd, sorted_getLast_ub _ hsle d hd⟩
    · rw [pivot, if_neg hnd] at h
      simp at h

/-- Claim C10 witness: a payload whose observations arrive latest-first
still yields the ascending index [24276, 24277]. -/
theorem claim10_witness :
    ([(24276 : Int), 24277].Sorted (· < ·)) ∧
      ∃ d, ([(24276 : Int), 24277].getLast? = some d) ∧
        ∀ x ∈ [(24276 : Int), 24277], x ≤ d := by
  have h := claim10_sorted_index
    { Results := { series := [{ seriesID := "A", data := [{ year := 2023, period := "M02", value := "4" }, { year := 2023, period := "M01", value := "3" }] }] } }
    { index := [24276, 24277], columns := ["A"],
      cells := [(24277, "A", 4), (24276, "A", 3)] }
    (by rfl)
  exact h

theorem foldl_min_le_init (xs : List Int) (a : Int) : xs.foldl min a ≤ a := by
  induction xs generalizing a with
  | nil => simp
  | cons x rest ih =>
    simp only [List.foldl_cons]
    exact le_trans (ih (min a x)) (min_le_left a x)

theorem foldl_min_le_mem (xs : List Int) (a x : Int) (hx : x ∈ xs) :
    xs.foldl min a ≤ x := by
  induction xs generalizing a with
  | nil => cases hx
  | cons y rest ih =>
    simp only [List.foldl_cons]
    rcases List.mem_cons.mp hx with rfl | hx
    · exact le_trans (foldl_min_le_init rest (min a x)) (min_le_right a x)
    · exact ih (min a y) hx

theorem init_le_foldl_max (xs : List Int) (a : Int) : a ≤ xs.foldl max a := by
  induction xs generalizing a with
  | nil => simp
  | cons x rest ih =>
    simp only [List.foldl_cons]
    exact le_trans (le_max_left a x) (ih (max a x))

theorem mem_le_foldl_max (xs : List Int) (a x : Int) (hx : x ∈ xs) :
    x ≤ xs.foldl max a := by
  induction xs generalizing a with
  | nil => cases hx
  | cons y rest ih =>
    simp only [List.foldl_cons]
    rcases List.mem_cons.mp hx with rfl | hx
    · exact le_trans (le_max_right a x) (init_le_foldl_max rest (max a x))
    · exact ih (max a y) hx

theorem listMin_le (l : List Int) (x : Int) (hx : x ∈ l) : listMin l ≤ x := by
  cases l with
  | nil => cases hx
  | cons a rest =>
    rcases List.mem_cons.mp hx with rfl | hx
    · exact foldl_min_le_init rest x
    · exact foldl_min_le_mem rest a x hx

theorem le_listMax (l : List Int) (x : Int) (hx : x ∈ l) : x ≤ listMax l := by
  cases l with
  | nil => cases hx
  | cons a rest =>
    rcases List.mem_cons.mp hx with rfl | hx
    · exact init_le_foldl_max rest x
    · exact mem_le_foldl_max rest a x hx

theorem listMin_lt_listMax (l : List Int) (h2 : 2 ≤ l.dedup.length) :
    listMin l < listMax l := by
  rcases hd : l.dedup with _ | ⟨a, _ | ⟨b, tl2⟩⟩
  · rw [hd] at h2; simp at h2
  · rw [hd] at h2; simp at h2
  · have hnd := List.nodup_dedup l
    rw [hd] at hnd
    have hab : a ≠ b := by
      intro hab
      subst hab
      exact (List.pairwise_cons.mp hnd).1 a (List.mem_cons_self _ _) rfl
    have ha : a ∈ l := List.mem_dedup.mp (by rw [hd]; exact List.mem_cons_self _ _)
    have hb : b ∈ l := List.mem_dedup.mp
      (by rw [hd]; exact List.mem_cons_of_mem _ (List.mem_cons_self _ _))
    rcases lt_or_gt_of_ne hab with hlt | hgt
    · exact lt_of_le_of_lt (listMin_le l a ha) (lt_of_lt_of_le hlt (le_listMax l b hb))
    · exact lt_of_le_of_lt (listMin_le l b hb) (lt_of_lt_of_le hgt (le_listMax l a ha))

theorem init_le_foldl_vmax (xs : List (Int × String × Rat)) (a : Rat) :
    a ≤ xs.foldl (fun acc x => max acc x.2.2) a := by
  induction xs generalizing a with
  | nil => simp
  | cons x rest ih =>
    simp only [List.foldl_cons]
    exact le_trans (le_max_left a x.2.2) (ih (max a x.2.2))

theorem mem_le_foldl_vmax (xs : List (Int × String × Rat)) (a : Rat)
    (x : Int × String × Rat) (hx : x ∈ xs) :
    x.2.2 ≤ xs.foldl (fun acc y => max acc y.2.2) a := by
  induction xs generalizing a with
  | nil => cases hx
  | cons y rest ih =>
    simp only [List.foldl_cons]
    rcases List.mem_cons.mp hx with rfl | hx
    · exact le_trans (le_max_right a x.2.2) (init_le_foldl_vmax rest (max a x.2.2))
    · exact ih (max a y.2.2) hx

theorem foldl_vmax_attained (xs : List (Int × String × Rat)) (a : Rat) :
    xs.foldl (fun acc y => max acc y.2.2) a = a ∨
      ∃ x ∈ xs, xs.foldl (fun acc y => max acc y.2.2) a = x.2.2 := by
  induction xs generalizing a with
  | nil => exact Or.inl rfl
  | cons y rest ih =>
    simp only [List.foldl_cons]
    rcases ih (max a y.2.2) with h | ⟨x, hx, hxe⟩
    · rcases le_total a y.2.2 with hle | hle
      · exact Or.inr ⟨y, List.mem_cons_self _ _, by rw [h, max_eq_right hle]⟩
      · exact Or.inl (by rw [h, max_eq_left hle])
    · exact Or.inr ⟨x, List.mem_cons_of_mem _ hx, hxe⟩

theorem dataMax_ub (cells : List (Int × String × Rat)) (x : Int × String × Rat)
    (hx : x ∈ cells) : x.2.2 ≤ dataMax cells := by
  cases cells with
  | nil => cases hx
  | cons c cs =>
    rcases List.mem_cons.mp hx with rfl | hx
    · exact init_le_foldl_vmax cs x.2.2
    · exact mem_le_foldl_vmax cs c.2.2 x hx

theorem dataMax_attained (cells : List (Int × String × Rat)) (h : cells ≠ []) :
    ∃ x ∈ cells, x.2.2 = dataMax cells := by
  cases cells with
  | nil => exact absurd rfl h
  | cons c cs =>
    rcases foldl_vmax_attained cs c.2.2 with he | ⟨x, hx, hxe⟩
    · exact ⟨c, List.mem_cons_self _ _, he.symm⟩
    · exact ⟨x, List.mem_cons_of_mem _ hx, hxe.symm⟩

/-- Example table used to instantiate the renderer theorems: two dates in
day serials with one series. -/
def Tex : Table :=
  { index := [17167, 20148], columns := ["LNS14000000"],
    cells := [(17167, "LNS14000000", 5), (20148, "LNS14000000", 4)] }

/-- Claim C5: the x-limits are startDate - padding and endDate + padding
with padding = (endDate - startDate) * xPadding over the index extremes,
and with positive padding fraction and at least two distinct dates the
data range is strictly inside the drawable range. -/
theorem claim5_padding (t : Table) (ars scv : Bool) (xp : Rat) (hne : t.index ≠ []) :
    ((plot_time_series t ars scv xp).x_min =
        ((listMin t.index : Int) : Rat) -
          ((listMax t.index - listMin t.index : Int) : Rat) * xp ∧
      (plot_time_series t ars scv xp).x_max =
        ((listMax t.index : Int) : Rat) +
          ((listMax t.index - listMin t.index : Int) : Rat) * xp) ∧
    (0 < xp → 2 ≤ t.index.dedup.length →
      (plot_time_series t ars scv xp).x_min < ((listMin t.index : Int) : Rat) ∧
        ((listMin t.index : Int) : Rat) ≤ ((listMax t.index : Int) : Rat) ∧
        ((listMax t.index : Int) : Rat) < (plot_time_series t ars scv xp).x_max) := by
  refine ⟨⟨rfl, rfl⟩, ?_⟩
  intro hxp h2
  have hlt : listMin t.index < listMax t.index := listMin_lt_listMax t.index h2
  have hpad : 0 < ((listMax t.index - listMin t.index : Int) : Rat) * xp := by
    apply mul_pos _ hxp
    have : (0 : Int) < listMax t.index - listMin t.index := by omega
    exact_mod_cast this
  refine ⟨?_, ?_, ?_⟩
  · show ((listMin t.index : Int) : Rat) - _ < _
    linarith
  · exact_mod_cast le_of_lt hlt
  · show _ < ((listMax t.index : Int) : Rat) + _
    linarith

/-- Claim C5 witness: at the two-date example table with the default 2%
padding fraction, the data range is strictly inside the x-limits. -/
theorem claim5_witness :
    (plot_time_series Tex true true (2 / 100)).x_min < ((listMin Tex.index : Int) : Rat) ∧
      ((listMin Tex.index : Int) : Rat) ≤ ((listMax Tex.index : Int) : Rat) ∧
      ((listMax Tex.index : Int) : Rat) < (plot_time_series Tex true true (2 / 100)).x_max :=
  (claim5_padding Tex true true (2 / 100) (by decide)).2 (by norm_num) (by decide)

/-- Claim C6: the y-axis range is exactly [0, max(15, dataMax * 1.1)],
where dataMax is attained by some cell and bounds every cell; hence the
y-max is at least 15 and at least 1.1 times every cell value. -/
theorem claim6_yaxis (t : Table) (ars scv : Bool) (xp : Rat)
    (hne : t.index ≠ []) (hcells : t.cells ≠ []) :
    (plot_time_series t ars scv xp).y_min = 0 ∧
    (plot_time_series t ars scv xp).y_max = max (dataMax t.cells * (11 / 10)) 15 ∧
    (∃ x ∈ t.cells, x.2.2 = dataMax t.cells) ∧
    (∀ x ∈ t.cells, x.2.2 ≤ dataMax t.cells) ∧
    15 ≤ (plot_time_series t ars scv xp).y_max ∧
    (∀ x ∈ t.cells, x.2.2 * (11 / 10) ≤ (plot_time_series t ars scv xp).y_max) := by
  refine ⟨rfl, rfl, dataMax_attained t.cells hcells, fun x hx => dataMax_ub t.cells x hx,
    le_max_right _ _, fun x hx => ?_⟩
  have h1 : x.2.2 * (11 / 10) ≤ dataMax t.cells * (11 / 10) := by
    have := dataMax_ub t.cells x hx
    nlinarith
  exact le_trans h1 (le_max_left _ _)

/-- Claim C6 witness: the y-axis facts at the example table. -/
theorem claim6_witness :
    (plot_time_series Tex true true (2 / 100)).y_min = 0 ∧
    (plot_time_series Tex true true (2 / 100)).y_max = max (dataMax Tex.cells * (11 / 10)) 15 ∧
    (∃ x ∈ Tex.cells, x.2.2 = dataMax Tex.cells) ∧
    (∀ x ∈ Tex.cells, x.2.2 ≤ dataMax Tex.cells) ∧
    15 ≤ (plot_time_series Tex true true (2 / 100)).y_max ∧
    (∀ x ∈ Tex.cells, x.2.2 * (11 / 10) ≤ (plot_time_series Tex true true (2 / 100)).y_max) :=
  claim6_yaxis Tex true true (2 / 100) (by decide) (by decide)

/-- Claim C7: with recession shading on, the drawn bands are exactly the
clipped intervals: an interval ending before x_min or starting after
x_max contributes no band, and an interval meeting [x_min, x_max]
contributes exactly the band [max(start, x_min), min(end, x_max)]. -/
theorem claim7_recession_bands (t : Table) (scv : Bool) (xp : Rat)
    (hne : t.index ≠ []) :
    (plot_time_series t true scv xp).bands =
      recession_dates.filterMap (clipBand (plot_time_series t true scv xp).x_min
        (plot_time_series t true scv xp).x_max) ∧
    ∀ iv ∈ recession_dates,
      (((iv.2 : Rat) < (plot_time_series t true scv xp).x_min ∨
          (plot_time_series t true scv xp).x_max < (iv.1 : Rat)) →
        clipBand (plot_time_series t true scv xp).x_min
          (plot_time_series t true scv xp).x_max iv = none) ∧
      ((plot_time_series t true scv xp).x_min ≤ (iv.2 : Rat) →
        (iv.1 : Rat) ≤ (plot_time_series t true scv xp).x_max →
        clipBand (plot_time_series t true scv xp).x_min
            (plot_time_series t true scv xp).x_max iv =
          some (max (iv.1 : Rat) (plot_time_series t true scv xp).x_min,
            min (iv.2 : Rat) (plot_time_series t true scv xp).x_max)) := by
  refine ⟨rfl, fun iv hiv => ⟨fun hout => ?_, fun h1 h2 => ?_⟩⟩
  · rw [clipBand, if_pos hout]
  · have hno : ¬ ((iv.2 : Rat) < (plot_time_series t true scv xp).x_min ∨
        (plot_time_series t true scv xp).x_max < (iv.1 : Rat)) := by
      push_neg
      exact ⟨h1, h2⟩
    rw [clipBand, if_neg hno]

/-- Claim C7 witness: the band facts at the example table, whose visible
window contains the COVID-19 recession interval. -/
theorem claim7_witness :
    (plot_time_series Tex true true (2 / 100)).bands =
      recession_dates.filterMap (clipBand (plot_time_series Tex true true (2 / 100)).x_min
        (plot_time_series Tex true true (2 / 100)).x_max) ∧
    ∀ iv ∈ recession_dates,
      (((iv.2 : Rat) < (plot_time_series Tex true true (2 / 100)).x_min ∨
          (plot_time_series Tex true true (2 / 100)).x_max < (iv.1 : Rat)) →
        clipBand (plot_time_series Tex true true (2 / 100)).x_min
          (plot_time_series Tex true true (2 / 100)).x_max iv = none) ∧
      ((plot_time_series Tex true true (2 / 100)).x_min ≤ (iv.2 : Rat) →
        (iv.1 : Rat) ≤ (plot_time_series Tex true true (2 / 100)).x_max →
        clipBand (plot_time_series Tex true true (2 / 100)).x_min
            (plot_time_series Tex true true (2 / 100)).x_max iv =
          some (max (iv.1 : Rat) (plot_time_series Tex true true (2 / 100)).x_min,
            min (iv.2 : Rat) (plot_time_series Tex true true (2 / 100)).x_max)) :=
  claim7_recession_bands Tex true (2 / 100) (by decide)

/-- Claim C3: for a non-empty single-column table with show_current_value
on, the callout for the column carries the positionally last value of the
column as the horizontal-line height, places the text at endDate plus 80%
of the padding, and its text is the value at one decimal place followed
by a percent sign. -/
theorem claim3_current_value (t : Table) (c : String) (v : Rat) (ars : Bool) (xp : Rat)
    (hcols : t.columns = [c]) (hne : t.index ≠ [])
    (hv : currentValue t c = some v) :
    (plot_time_series t ars true xp).callouts =
      [{ column := c, hline := some v,
         text_x := ((listMax t.index : Int) : Rat) +
           (((listMax t.index - listMin t.index : Int) : Rat) * xp) * (8 / 10),
         text := formatOneDec v ++ "%" }] := by
  simp [plot_time_series, hcols, hv, calloutText]

/-- Claim C3 witness: the callout of the example table, whose last value
in index order is 4. -/
theorem claim3_witness :
    (plot_time_series Tex true true (2 / 100)).callouts =
      [{ column := "LNS14000000", hline := some 4,
         text_x := ((listMax Tex.index : Int) : Rat) +
           (((listMax Tex.index - listMin Tex.index : Int) : Rat) * (2 / 100)) * (8 / 10),
         text := formatOneDec 4 ++ "%" }] :=
  claim3_current_value Tex "LNS14000000" 4 true (2 / 100) rfl (by decide) (by decide)

/-- Claim C9: when the tidy points reaching the pivot contain two entries
with the same (date, series id) key, the pivot raises the duplicate-index
error and the normalizer returns no table — the later occurrence never
silently overwrites the earlier one. -/
theorem claim9_duplicate_rejected (p : RawPayload) (pts : List DataPoint)
    (h1 : prePivot p = .ok pts)
    (h2 : ¬ (pts.map (fun q => (q.date, q.series_id))).Nodup) :
    process_bls_data p = .error .duplicateIndex := by
  simp [process_bls_data, h1, pivot, h2]

/-- Claim C9 witness: a payload repeating the observation (2023, "M01",
"3.5") in one series is rejected with the duplicate-index error. -/
theorem claim9_witness :
    process_bls_data { Results := { series := [{ seriesID := "A", data := [{ year := 2023, period := "M01", value := "3" }, { year := 2023, period := "M01", value := "3" }] }] } } =
      .error .duplicateIndex :=
  claim9_duplicate_rejected _
    [{ series_id := "A", date := 24276, value := 3 },
     { series_id := "A", date := 24276, value := 3 }]
    (by rfl) (by decide)

end JobsDay
